import Mathlib

/-!
Shallow embedding of src/open_all_htmls.py.

The script resolves a target directory (optional CLI argument, defaulting
to the current working directory), validates it, lists its immediate
entries, filters for regular files whose lowercased name ends in ".html",
and issues one browser-launch request per match with a file URI built from
the absolute path.

Operating-system observations (current working directory, is-directory,
directory listing, is-file) are modelled as oracles in an environment
structure.  Path manipulation (os.path.join, os.path.normpath,
os.path.abspath for POSIX) is embedded concretely.  A run is summarised by
the list of printed lines, the list of launch-request URIs (in order), the
trace of filesystem operations performed, and the exit code.
-/

namespace OpenAllHtmls

/-- An apostrophe character as a string, used in printed messages. -/
def quo : String := "\x27"

/-- Embedding of str.lower: lowercase each character (kept structural over
the character list so that concrete runs evaluate). -/
def lower (s : String) : String :=
  String.mk (s.data.map Char.toLower)

/-- Embedding of str.endswith as a structural suffix test on the
character list. -/
def endswith (s suffix : String) : Bool :=
  suffix.data.isSuffixOf s.data

/-- Embedding of str.startswith as a structural prefix test on the
character list. -/
def startswith (s pre : String) : Bool :=
  pre.data.isPrefixOf s.data

/-- Helper for splitting on a separator character: walks the characters,
accumulating the current component in reverse. -/
def splitCharsAux (sep : Char) : List Char → List Char → List String
  | [], cur => [String.mk cur.reverse]
  | c :: rest, cur =>
      if c = sep then String.mk cur.reverse :: splitCharsAux sep rest []
      else splitCharsAux sep rest (c :: cur)

/-- Embedding of str.split with a one-character separator, as used by
normpath on the slash. -/
def splitOnChar (sep : Char) (s : String) : List String :=
  splitCharsAux sep s.data []

/-- Embedding of sep.join(parts): interleave the separator between the
parts. -/
def joinWith (sep : String) : List String → String
  | [] => ""
  | [s] => s
  | s :: rest => s ++ sep ++ joinWith sep rest

/-- Embedding of POSIX os.path.join for two components: if the second
component is absolute it replaces the first, otherwise it is appended with
a separator unless one is already present. -/
def pathJoin (a b : String) : String :=
  if startswith b "/" then b
  else if a = "" || endswith a "/" then a ++ b
  else a ++ "/" ++ b

/-- Loop of POSIX os.path.normpath: processes the slash-separated
components, dropping "" and ".", resolving ".." against the accumulated
components (kept in reverse).  A ".." is kept when the path is relative
and nothing has been accumulated, or when the last accumulated component
is itself ".."; it pops otherwise (or is dropped at the root). -/
def normLoop (absRoot : Bool) : List String → List String → List String
  | [], acc => acc.reverse
  | c :: rest, acc =>
    if c = "" || c = "." then normLoop absRoot rest acc
    else if c ≠ ".." || (!absRoot && acc = []) || acc.head? = some ".." then
      normLoop absRoot rest (c :: acc)
    else
      match acc with
      | [] => normLoop absRoot rest []
      | _ :: acc' => normLoop absRoot rest acc'

/-- Embedding of POSIX os.path.normpath: collapse repeated separators and
resolve "." and ".." components.  One or two leading slashes are
preserved, three or more collapse to one; the empty result becomes ".". -/
def normpath (p : String) : String :=
  if p = "" then "."
  else
    let slashes : Nat :=
      if startswith p "/" then
        if startswith p "//" && !startswith p "///" then 2 else 1
      else 0
    let comps := normLoop (slashes > 0) (splitOnChar '/' p) []
    let res := joinWith "" (List.replicate slashes "/") ++ joinWith "/" comps
    if res = "" then "." else res

/-- Embedding of POSIX os.path.abspath: a relative path is joined onto the
current working directory, then the result is normalised. -/
def abspath (cwd0 p : String) : String :=
  if startswith p "/" then normpath p
  else normpath (pathJoin cwd0 p)

/-- Outcome of an os.listdir call: the ordered entries, or a
PermissionError. -/
inductive ListingResult where
  | ok (entries : List String)
  | permissionDenied
deriving DecidableEq, Repr

/-- Filesystem operations the script can perform, recorded in the run
trace.  A write constructor is present in the vocabulary so that the
absence of writes is expressible; no line of the source emits it. -/
inductive FsOp where
  | getcwd
  | isdir (p : String)
  | listdir (p : String)
  | isfile (p : String)
  | write (p : String)
deriving DecidableEq, Repr

/-- Whether a filesystem operation mutates the filesystem. -/
def FsOp.isWrite : FsOp → Bool
  | FsOp.write _ => true
  | _ => false

/-- The operating-system observations available to the script: the current
working directory and the is-directory, directory-listing and is-file
oracles. -/
structure Env where
  cwdOf : String
  isDir : String → Bool
  listdir : String → ListingResult
  isFile : String → Bool

/-- Summary of one run: printed lines (one entry per print call, in
order), browser-launch URIs (in order), the filesystem-operation trace,
and the process exit code. -/
structure RunResult where
  printed : List String
  launched : List String
  fsOps : List FsOp
  exitCode : Nat
deriving DecidableEq, Repr

/-- Step 1 of the script: the target directory is the current working
directory when no argument is given, otherwise the absolute form of the
given path. -/
def resolveDir (env : Env) (target_dir : Option String) : String :=
  match target_dir with
  | none => env.cwdOf
  | some t => abspath env.cwdOf t

/-- Step 4 of the script, the list comprehension: keep the entries whose
lowercased name ends with ".html" and which are regular files; the
is-file test runs on the entry joined onto the directory, and only after
the suffix test succeeds. -/
def filterHtml (isFile : String → Bool) (cwd : String) (files : List String) :
    List String :=
  files.filter (fun f => endswith (lower f) ".html" && isFile (pathJoin cwd f))

/-- Filesystem operations performed by the filtering comprehension: one
is-file query per entry that passes the suffix test (the conjunction
short-circuits). -/
def filterOps (cwd : String) (files : List String) : List FsOp :=
  files.filterMap (fun f =>
    if endswith (lower f) ".html" then some (FsOp.isfile (pathJoin cwd f)) else none)

/-- The launch-request URI for a matched filename: "file://" followed by
the absolute form of the filename joined onto the directory. -/
def uriOf (cwd0 cwd f : String) : String :=
  "file://" ++ abspath cwd0 (pathJoin cwd f)

/-- Step 5 of the script, the for loop: per filename, in order, print an
opening message and issue a launch request for its URI, accumulating both
lists. -/
def launchLoop (cwd0 cwd : String) :
    List String → List String → List String → List String × List String
  | [], ps, ls => (ps, ls)
  | f :: rest, ps, ls =>
      launchLoop cwd0 cwd rest (ps ++ ["  -> Opening: " ++ f]) (ls ++ [uriOf cwd0 cwd f])

/-- Embedding of open_all_htmls: resolve the directory, validate it (error
and exit 1 when it is not a directory), list it (permission error exits
1), filter for HTML files (empty set reports and returns with exit 0),
then print and launch each match. -/
def open_all_htmls (env : Env) (target_dir : Option String) : RunResult :=
  let cwd := resolveDir env target_dir
  let resolveOps : List FsOp :=
    match target_dir with
    | none => [FsOp.getcwd]
    | some _ => []
  if !env.isDir cwd then
    { printed := ["Error: Directory " ++ quo ++ cwd ++ quo ++
        " not found or is not a directory."]
      launched := []
      fsOps := resolveOps ++ [FsOp.isdir cwd]
      exitCode := 1 }
  else
    let header := ["--- HTML File Opener ---", "Searching for HTML files in: " ++ cwd]
    match env.listdir cwd with
    | ListingResult.permissionDenied =>
      { printed := header ++ ["Error: Permission denied to access directory: " ++ cwd]
        launched := []
        fsOps := resolveOps ++ [FsOp.isdir cwd, FsOp.listdir cwd]
        exitCode := 1 }
    | ListingResult.ok files =>
      let html_files := filterHtml env.isFile cwd files
      let baseOps := resolveOps ++ [FsOp.isdir cwd, FsOp.listdir cwd] ++ filterOps cwd files
      if html_files.isEmpty then
        { printed := header ++ ["No HTML files found in the current directory."]
          launched := []
          fsOps := baseOps
          exitCode := 0 }
      else
        let opened := launchLoop env.cwdOf cwd html_files [] []
        { printed := header ++
            ["\nFound " ++ toString html_files.length ++ " HTML file(s). Opening them now..."] ++
            opened.1 ++
            ["\n--- Finished ---",
             "All " ++ toString html_files.length ++
               " files have been sent to the default browser."]
          launched := opened.2
          fsOps := baseOps
          exitCode := 0 }

/-- Embedding of the __main__ block: when the argument vector has more
than one entry the second (the first positional argument) is passed,
otherwise None is passed. -/
def mainRun (env : Env) (argv : List String) : RunResult :=
  match argv with
  | _ :: arg1 :: _ => open_all_htmls env (some arg1)
  | _ => open_all_htmls env none

/-- A sample environment: working directory "/home/user" holding files
a.HTML, b.html and c.txt and a subdirectory d; a second directory
"/other" that is empty; "/locked" is a directory whose listing is
permission-denied; nothing else exists. -/
def envA : Env :=
  { cwdOf := "/home/user"
    isDir := fun p => p = "/home/user" || p = "/home/user/d" || p = "/other" || p = "/locked"
    listdir := fun p =>
      if p = "/home/user" then ListingResult.ok ["a.HTML", "b.html", "c.txt", "d"]
      else if p = "/other" then ListingResult.ok []
      else ListingResult.permissionDenied
    isFile := fun p =>
      p = "/home/user/a.HTML" || p = "/home/user/b.html" || p = "/home/user/c.txt" }

/-- The opening loop equals an accumulator-prepended map: one message and
one launch request per filename, in order. -/
theorem launchLoop_spec (cwd0 cwd : String) (files ps ls : List String) :
    launchLoop cwd0 cwd files ps ls =
      (ps ++ files.map (fun f => "  -> Opening: " ++ f),
       ls ++ files.map (uriOf cwd0 cwd)) := by
  induction files generalizing ps ls with
  | nil => simp [launchLoop]
  | cons f rest ih => simp [launchLoop, ih]

/-- Every element of the filter trace is an is-file query on an entry
joined onto the directory. -/
theorem mem_filterOps (cwd : String) (files : List String) (op : FsOp)
    (h : op ∈ filterOps cwd files) : ∃ f, op = FsOp.isfile (pathJoin cwd f) := by
  simp only [filterOps, List.mem_filterMap] at h
  obtain ⟨f, -, hf⟩ := h
  by_cases hc : endswith (lower f) ".html" = true
  · rw [if_pos hc] at hf
    exact ⟨f, (Option.some.injEq _ _ ▸ hf).symm⟩
  · rw [if_neg hc] at hf
    exact absurd hf (by simp)

/-- C1: for every directory listing, the filter retains exactly the
entries that are regular files and whose lowercased name ends with
".html"; in particular, for a directory containing a.HTML, b.html, c.txt
and a subdirectory d, the filtered list is exactly a.HTML, b.html:
case-insensitive match, directories excluded. -/
theorem filterHtml_mem_iff_and_example :
    (∀ (isFile : String → Bool) (cwd : String) (files : List String) (f : String),
        f ∈ filterHtml isFile cwd files ↔
          f ∈ files ∧ endswith (lower f) ".html" = true ∧ isFile (pathJoin cwd f) = true) ∧
    filterHtml (fun p => p = "/d/a.HTML" || p = "/d/b.html" || p = "/d/c.txt") "/d"
        ["a.HTML", "b.html", "c.txt", "d"] = ["a.HTML", "b.html"] := by
  constructor
  · intro isFile cwd files f
    simp [filterHtml, List.mem_filter, Bool.and_eq_true, and_assoc]
  · decide

/-- C6: with no directory argument the resolved target directory is the
current working directory, both at the resolver and through the
command-line entry point. -/
theorem default_target_is_cwd (env : Env) :
    resolveDir env none = env.cwdOf ∧
      ∀ prog : String, mainRun env [prog] = open_all_htmls env none :=
  ⟨rfl, fun _ => rfl⟩

/-- C8: arguments beyond the first positional one are ignored: a run on
any argument vector equals the run on its first two entries (program name
and first positional argument). -/
theorem mainRun_take_two (env : Env) (argv : List String) :
    mainRun env argv = mainRun env (argv.take 2) := by
  match argv with
  | [] => rfl
  | [_] => rfl
  | _ :: _ :: _ => rfl

/-- C2: when the listing succeeds, the launch requests are exactly one per
matched filename, in listing order, each carrying the URI "file://"
followed by the absolute path of the file; in particular there are as
many requests as matches. -/
theorem launched_eq_map_uri (env : Env) (target : Option String) (files : List String)
    (hdir : env.isDir (resolveDir env target) = true)
    (hls : env.listdir (resolveDir env target) = ListingResult.ok files) :
    (open_all_htmls env target).launched =
      (filterHtml env.isFile (resolveDir env target) files).map
        (uriOf env.cwdOf (resolveDir env target)) ∧
    (open_all_htmls env target).launched.length =
      (filterHtml env.isFile (resolveDir env target) files).length := by
  have key : (open_all_htmls env target).launched =
      (filterHtml env.isFile (resolveDir env target) files).map
        (uriOf env.cwdOf (resolveDir env target)) := by
    by_cases he : filterHtml env.isFile (resolveDir env target) files = []
    · simp [open_all_htmls, hdir, hls, he]
    · simp [open_all_htmls, hdir, hls, List.isEmpty_iff, he, launchLoop_spec]
  exact ⟨key, by simp [key]⟩

/-- C2 witness: on the sample environment with no argument, the two
matches a.HTML and b.html yield exactly their two file URIs. -/
theorem launched_eq_map_uri_witness :
    (open_all_htmls envA none).launched =
      (filterHtml envA.isFile (resolveDir envA none) ["a.HTML", "b.html", "c.txt", "d"]).map
        (uriOf envA.cwdOf (resolveDir envA none)) ∧
    (open_all_htmls envA none).launched.length =
      (filterHtml envA.isFile (resolveDir envA none)
        ["a.HTML", "b.html", "c.txt", "d"]).length :=
  launched_eq_map_uri envA none ["a.HTML", "b.html", "c.txt", "d"] (by decide) (by decide)

/-- C3: when the resolved path is not a directory, the run prints exactly
the error line naming the resolved path, exits with status 1, performs no
listing and issues no launch request. -/
theorem missing_directory_exits_one (env : Env) (target : Option String)
    (h : env.isDir (resolveDir env target) = false) :
    (open_all_htmls env target).exitCode = 1 ∧
    (open_all_htmls env target).printed =
      ["Error: Directory " ++ quo ++ resolveDir env target ++ quo ++
        " not found or is not a directory."] ∧
    (open_all_htmls env target).launched = [] ∧
    ∀ p : String, FsOp.listdir p ∉ (open_all_htmls env target).fsOps := by
  cases target <;> simp [open_all_htmls, h]

/-- C3 witness: the sample environment has no directory "/nope"; the run
on it exits 1, launches nothing and never lists. -/
theorem missing_directory_exits_one_witness :
    (open_all_htmls envA (some "/nope")).exitCode = 1 ∧
    (open_all_htmls envA (some "/nope")).launched = [] ∧
    FsOp.listdir "/nope" ∉ (open_all_htmls envA (some "/nope")).fsOps := by
  have h := missing_directory_exits_one envA (some "/nope") (by decide)
  exact ⟨h.1, h.2.2.1, h.2.2.2 "/nope"⟩

/-- C4: when the filtered set is empty the run prints the headers followed
by the no-files message, issues no launch request and exits with status
0. -/
theorem no_html_files_exits_zero (env : Env) (target : Option String) (files : List String)
    (hdir : env.isDir (resolveDir env target) = true)
    (hls : env.listdir (resolveDir env target) = ListingResult.ok files)
    (hempty : filterHtml env.isFile (resolveDir env target) files = []) :
    (open_all_htmls env target).exitCode = 0 ∧
    (open_all_htmls env target).launched = [] ∧
    (open_all_htmls env target).printed =
      ["--- HTML File Opener ---",
       "Searching for HTML files in: " ++ resolveDir env target,
       "No HTML files found in the current directory."] := by
  simp [open_all_htmls, hdir, hls, hempty]

/-- C4 witness: the sample directory "/other" is empty; scanning it exits
0 with the no-files message and no launch request. -/
theorem no_html_files_exits_zero_witness :
    (open_all_htmls envA (some "/other")).exitCode = 0 ∧
    (open_all_htmls envA (some "/other")).launched = [] ∧
    (open_all_htmls envA (some "/other")).printed =
      ["--- HTML File Opener ---",
       "Searching for HTML files in: " ++ resolveDir envA (some "/other"),
       "No HTML files found in the current directory."] :=
  no_html_files_exits_zero envA (some "/other") [] (by decide) (by decide) (by decide)

/-- C5: when the listing is permission-denied the run prints the
permission error naming the directory, exits with status 1 and issues no
launch request. -/
theorem permission_denied_exits_one (env : Env) (target : Option String)
    (hdir : env.isDir (resolveDir env target) = true)
    (hperm : env.listdir (resolveDir env target) = ListingResult.permissionDenied) :
    (open_all_htmls env target).exitCode = 1 ∧
    (open_all_htmls env target).launched = [] ∧
    (open_all_htmls env target).printed =
      ["--- HTML File Opener ---",
       "Searching for HTML files in: " ++ resolveDir env target,
       "Error: Permission denied to access directory: " ++ resolveDir env target] := by
  simp [open_all_htmls, hdir, hperm]

/-- C5 witness: listing the sample directory "/locked" is
permission-denied; the run exits 1 with the permission error and no
launch request. -/
theorem permission_denied_exits_one_witness :
    (open_all_htmls envA (some "/locked")).exitCode = 1 ∧
    (open_all_htmls envA (some "/locked")).launched = [] ∧
    (open_all_htmls envA (some "/locked")).printed =
      ["--- HTML File Opener ---",
       "Searching for HTML files in: " ++ resolveDir envA (some "/locked"),
       "Error: Permission denied to access directory: " ++
         resolveDir envA (some "/locked")] :=
  permission_denied_exits_one envA (some "/locked") (by decide) (by decide)

/-- C9: the no-files message is the fixed literal mentioning the current
directory, whatever directory was actually resolved and scanned. -/
theorem no_html_files_message_fixed (env : Env) (target : Option String)
    (files : List String)
    (hdir : env.isDir (resolveDir env target) = true)
    (hls : env.listdir (resolveDir env target) = ListingResult.ok files)
    (hempty : filterHtml env.isFile (resolveDir env target) files = []) :
    (open_all_htmls env target).printed.getLast? =
      some "No HTML files found in the current directory." := by
  simp [open_all_htmls, hdir, hls, hempty]

/-- C9 witness: scanning the explicit directory "/other", different from
the working directory "/home/user", still prints the literal that speaks
of the current directory. -/
theorem no_html_files_message_fixed_witness :
    (open_all_htmls envA (some "/other")).printed.getLast? =
      some "No HTML files found in the current directory." ∧
    resolveDir envA (some "/other") ≠ envA.cwdOf :=
  ⟨no_html_files_message_fixed envA (some "/other") [] (by decide) (by decide) (by decide),
   by decide⟩

/-- The filesystem trace of any run is the getcwd of the default
resolution, the is-directory check, and, when the check passes, the
listing of the resolved directory followed by the filtering queries. -/
theorem fsOps_eq (env : Env) (target : Option String) :
    (open_all_htmls env target).fsOps =
      (match target with | none => [FsOp.getcwd] | some _ => []) ++
      [FsOp.isdir (resolveDir env target)] ++
      (if env.isDir (resolveDir env target) then
        FsOp.listdir (resolveDir env target) ::
          (match env.listdir (resolveDir env target) with
           | ListingResult.ok files => filterOps (resolveDir env target) files
           | ListingResult.permissionDenied => [])
       else []) := by
  cases hd : env.isDir (resolveDir env target) with
  | false => cases target <;> simp [open_all_htmls, hd]
  | true =>
    cases hls : env.listdir (resolveDir env target) with
    | ok files => cases target <;> simp [open_all_htmls, hd, hls, apply_ite RunResult.fsOps]
    | permissionDenied => cases target <;> simp [open_all_htmls, hd, hls]

/-- C7: every filesystem operation of a run is a read (no write is ever
traced), and every directory listing the run performs is on the resolved
path. -/
theorem fsOps_read_only_and_listdir_resolved (env : Env) (target : Option String) :
    (∀ op ∈ (open_all_htmls env target).fsOps, op.isWrite = false) ∧
    (∀ p : String, FsOp.listdir p ∈ (open_all_htmls env target).fsOps →
        p = resolveDir env target) := by
  constructor
  · intro op hop
    rw [fsOps_eq] at hop
    simp only [List.mem_append, List.mem_cons, List.not_mem_nil, or_false] at hop
    rcases hop with (hop | hop) | hop
    · cases target <;> simp_all [FsOp.isWrite]
    · simp [hop, FsOp.isWrite]
    · by_cases hd : env.isDir (resolveDir env target) = true
      · rw [if_pos hd] at hop
        simp only [List.mem_cons] at hop
        rcases hop with hop | hop
        · simp [hop, FsOp.isWrite]
        · cases hls : env.listdir (resolveDir env target) with
          | ok files =>
            rw [hls] at hop
            obtain ⟨f, hf⟩ := mem_filterOps _ _ _ hop
            simp [hf, FsOp.isWrite]
          | permissionDenied => rw [hls] at hop; simp at hop
      · rw [if_neg hd] at hop; simp at hop
  · intro p hp
    rw [fsOps_eq] at hp
    simp only [List.mem_append, List.mem_cons, List.not_mem_nil, or_false] at hp
    rcases hp with (hp | hp) | hp
    · cases target <;> simp_all
    · simp at hp
    · by_cases hd : env.isDir (resolveDir env target) = true
      · rw [if_pos hd] at hp
        simp only [List.mem_cons] at hp
        rcases hp with hp | hp
        · exact (FsOp.listdir.injEq _ _ ▸ hp)
        · cases hls : env.listdir (resolveDir env target) with
          | ok files =>
            rw [hls] at hp
            obtain ⟨f, hf⟩ := mem_filterOps _ _ _ hp
            simp at hf
          | permissionDenied => rw [hls] at hp; simp at hp
      · rw [if_neg hd] at hp; simp at hp

/-- C7 witness: on the sample run no write operation is in the trace, and
the one listing performed is of the resolved working directory. -/
theorem fsOps_read_only_witness :
    FsOp.write "/home/user/evil" ∉ (open_all_htmls envA none).fsOps ∧
    ("/home/user" : String) = resolveDir envA none := by
  have h := fsOps_read_only_and_listdir_resolved envA none
  refine ⟨fun hmem => ?_, h.2 "/home/user" (by decide)⟩
  have hw := h.1 _ hmem
  simp [FsOp.isWrite] at hw

/-- C10: two runs on the same target whose environments agree on the
observations the runs make — the working directory, the directory check
at the resolved path, the listing result there, and the is-file answer on
every queried path, that is, on each suffix-passing entry of the observed
listing joined onto the directory — print the same lines, launch the same
URIs in the same order and exit with the same code.  The oracles may
differ arbitrarily at every unqueried path. -/
theorem run_deterministic_of_same_observations (env1 env2 : Env) (target : Option String)
    (hcwd : env1.cwdOf = env2.cwdOf)
    (hdir1 : env1.isDir (resolveDir env1 target) = true)
    (hdir2 : env2.isDir (resolveDir env2 target) = true)
    (hls : env1.listdir (resolveDir env1 target) = env2.listdir (resolveDir env2 target))
    (hfile : ∀ files : List String,
      env2.listdir (resolveDir env2 target) = ListingResult.ok files →
      ∀ f ∈ files, endswith (lower f) ".html" = true →
        env1.isFile (pathJoin (resolveDir env2 target) f) =
          env2.isFile (pathJoin (resolveDir env2 target) f)) :
    (open_all_htmls env1 target).printed = (open_all_htmls env2 target).printed ∧
    (open_all_htmls env1 target).launched = (open_all_htmls env2 target).launched ∧
    (open_all_htmls env1 target).exitCode = (open_all_htmls env2 target).exitCode := by
  have hres : resolveDir env1 target = resolveDir env2 target := by
    cases target <;> simp [resolveDir, hcwd]
  have hdir1' : env1.isDir (resolveDir env2 target) = true := by
    rw [← hres]; exact hdir1
  have hls' : env1.listdir (resolveDir env2 target) =
      env2.listdir (resolveDir env2 target) := by
    nth_rewrite 1 [← hres]
    exact hls
  cases hls2 : env2.listdir (resolveDir env2 target) with
  | permissionDenied =>
    refine ⟨?_, ?_, ?_⟩ <;>
      simp [open_all_htmls, hres, hcwd, hdir1', hdir2, hls', hls2]
  | ok files =>
    have hfilt : filterHtml env1.isFile (resolveDir env2 target) files =
        filterHtml env2.isFile (resolveDir env2 target) files := by
      simp only [filterHtml]
      apply List.filter_congr
      intro f hf
      by_cases hsuf : endswith (lower f) ".html" = true
      · simp only [hsuf, Bool.true_and]
        exact hfile files hls2 f hf hsuf
      · have hsuf' : endswith (lower f) ".html" = false := by simpa using hsuf
        simp [hsuf']
    refine ⟨?_, ?_, ?_⟩ <;>
      by_cases he : filterHtml env2.isFile (resolveDir env2 target) files = [] <;>
      simp [open_all_htmls, hres, hcwd, hdir1', hdir2, hls', hls2, hfilt, he,
        List.isEmpty_iff, launchLoop_spec]

/-- A second sample environment: identical to the first except that the
listing oracle answers differently at the unvisited path "/elsewhere" and
the is-file oracle answers differently at the unqueried paths
"/elsewhere/zz" and "/home/user/c.txt" (the latter is listed but fails
the suffix test, so its is-file answer is never requested). -/
def envB : Env :=
  { envA with
    listdir := fun p =>
      if p = "/elsewhere" then ListingResult.ok ["zz"] else envA.listdir p
    isFile := fun p =>
      if p = "/elsewhere/zz" then true
      else if p = "/home/user/c.txt" then false
      else envA.isFile p }

/-- C10 witness: the two sample environments differ in both oracles at
paths the run never queries, yet agree on all observations it makes, so
the runs coincide. -/
theorem run_deterministic_witness :
    (open_all_htmls envA none).printed = (open_all_htmls envB none).printed ∧
    (open_all_htmls envA none).launched = (open_all_htmls envB none).launched ∧
    (open_all_htmls envA none).exitCode = (open_all_htmls envB none).exitCode :=
  run_deterministic_of_same_observations envA envB none (by decide) (by decide)
    (by decide) (by decide)
    (by
      intro files hfiles f hf hsuf
      have h0 : envB.listdir (resolveDir envB none) =
          ListingResult.ok ["a.HTML", "b.html", "c.txt", "d"] := by decide
      rw [h0] at hfiles
      injection hfiles with hfe
      subst hfe
      fin_cases hf <;> revert hsuf <;> decide)

end OpenAllHtmls
